import Mathlib

/-!
Verification of the S3 bucket / bootstrap-data core of
kinvolk/cluster-api-provider-aws.

The embedding below follows the most defensive revision of the service,
src/pkg/cloud/services/s3/s3.go (explicit identity resolution, per-role
least-privilege policy), together with
src/pkg/cloud/services/s3/ignition/s3backend_backend.go,
src/unnamed/part_002 (the ignition document factory, package ignition),
src/pkg/cloud/services/s3/ignition/node.go and
src/api/v1alpha3/validate.go.

Cloud SDK clients (S3, STS) are opaque capabilities in the source; they are
modelled as an environment of response functions, and every operation
returns its Go result together with the list of capability calls it issued,
in order.  Go errors are modelled as values: an AWS coded error
(awserr.Error) or a plain error; errors.Wrap prepends "context: ".
Go strings are byte strings; Lean strings are used with character length,
which coincides on the ASCII data every theorem below touches.
-/

/-- Go error values: an `awserr.Error` carrying a code, or a plain error
built by `errors.New`. -/
inductive GoErr where
  | aws (code msg : String)
  | plain (msg : String)
deriving DecidableEq, Repr

/-- The Go `Error()` string: `awserr` prints "code: message". -/
def GoErr.message : GoErr → String
  | .aws code msg => code ++ ": " ++ msg
  | .plain msg => msg

/-- Model of `errors.Wrap(err, ctx)`: the wrapped message is
"ctx: underlying". -/
def GoErr.wrap (e : GoErr) (ctx : String) : GoErr :=
  .plain (ctx ++ ": " ++ e.message)

/-- Model of `s3.ErrCodeBucketAlreadyOwnedByYou`. -/
def errCodeBucketAlreadyOwnedByYou : String := "BucketAlreadyOwnedByYou"

/-- Whether an error is the AWS "bucket already owned by you" condition the
source collapses to success (s3.go, createBucketIfNotExist). -/
def isAlreadyOwnedErr : GoErr → Bool
  | .aws code _ => code = errCodeBucketAlreadyOwnedByYou
  | .plain _ => false

/-- The `infrav1.S3Bucket` fields the service reads (api types; the
authoritative revision gates on `Create`). -/
structure S3Bucket where
  Create : Bool
  Name : String
  ControlPlaneIAMInstanceProfile : String
  NodesIAMInstanceProfiles : List String
deriving DecidableEq, Repr

/-- The slice of `scope.S3Scope` the service reads: the bucket spec,
`Namespace()` and `KubernetesClusterName()`. -/
structure S3Scope where
  bucket : S3Bucket
  ns : String
  kubernetesClusterName : String
deriving DecidableEq, Repr

/-- The slice of `scope.MachineScope` the service reads: `Role()` and
`Name()`.  A Go nil pointer is `Option.none` at the call sites. -/
structure MachineScope where
  role : String
  name : String
deriving DecidableEq, Repr

/-- One observable call on the object-store or identity capability
clients. -/
inductive CloudCall where
  | createBucket (bucket : String)
  | deleteBucket (bucket : String)
  | putObject (bucket key data : String)
  | deleteObject (bucket key : String)
  | putBucketPolicy (bucket policy : String)
  | getCallerIdentity
deriving DecidableEq, Repr

/-- The capability clients' behaviour: each request either succeeds
(`none`) or fails with a Go error; `GetCallerIdentity` yields the caller's
account id. -/
structure CloudEnv where
  createBucket : String → Option GoErr
  deleteBucket : String → Option GoErr
  putObject : String → String → String → Option GoErr
  deleteObject : String → String → Option GoErr
  putBucketPolicy : String → String → Option GoErr
  getCallerIdentity : Except GoErr String

/-- Modelled from the spec: digit alphabet of the base-36 encoding used by
the repository's `hash.Base36TruncatedHash` (package pkg/hash, whose file is
not among the provided sources): lowercase alphanumerics. -/
def base36Digit (n : Nat) : Char :=
  if n < 10 then Char.ofNat (48 + n) else Char.ofNat (87 + n)

/-- Modelled from the spec: big-endian base-36 digit string of a natural
number. -/
def toBase36 (n : Nat) : List Char :=
  if _h : n < 36 then [base36Digit n]
  else toBase36 (n / 36) ++ [base36Digit (n % 36)]
termination_by n
decreasing_by
  exact Nat.div_lt_self (by omega) (by omega)

/-- Modelled from the spec: a stable collision-resistant digest of a string
(stand-in for the SHA-based digest of pkg/hash, not among the provided
sources); only stability and determinism matter to the claims. -/
def stableDigest (s : String) : Nat :=
  s.foldl (fun a c => (a * 16777619 + c.toNat) % 2 ^ 64) 2166136261

/-- Modelled from the spec: `hash.Base36TruncatedHash(s, maxLen)` returns a
base-36 rendering of a digest of `s`, truncated to at most `maxLen`
characters; per §4.1 a hashing failure would be an error, which this model
never produces. -/
def Base36TruncatedHash (s : String) (maxLen : Nat) : Except GoErr String :=
  .ok (String.mk ((toBase36 (stableDigest s)).take maxLen))

/-- Model of `s3MaxBucketNameLength` (s3.go). -/
def s3MaxBucketNameLength : Nat := 63

/-- Model of `Service.bucketManagementEnabled` (s3.go): the authoritative
revision reads the spec's `Create` flag. -/
def Service.bucketManagementEnabled (s : S3Scope) : Bool :=
  s.bucket.Create

/-- Model of `Service.bucketName` (s3.go): the explicit name when set, else
`namespace-clusterName` when shorter than 63, else a base-36 truncated hash
of that candidate with the "-k8s" suffix. -/
def Service.bucketName (s : S3Scope) : Except GoErr String :=
  if s.bucket.Name ≠ "" then .ok s.bucket.Name
  else
    let name := s.ns ++ "-" ++ s.kubernetesClusterName
    if name.length < s3MaxBucketNameLength then .ok name
    else
      match Base36TruncatedHash name (s3MaxBucketNameLength - "-k8s".length) with
      | .error e => .error (e.wrap "unable to create S3 bucket name")
      | .ok shortName => .ok (shortName ++ "-k8s")

/-- Model of `path.Join(a, b)` (bootstrapDataKey): empty components are
dropped; both call sites pass already-clean slash-free segments, on which
`path.Clean` is the identity. -/
def pathJoin (a b : String) : String :=
  if a = "" then b else if b = "" then a else a ++ "/" ++ b

/-- Model of `Service.bootstrapDataKey` (s3.go): `role/machineName`. -/
def Service.bootstrapDataKey (m : MachineScope) : String :=
  pathJoin m.role m.name

/-- Model of `(&url.URL{Scheme: "s3", Host: bucket, Path: key}).String()`
for keys free of characters needing percent-escaping: `url.URL.String`
inserts "/" before a rootless path when a host is present. -/
def objectURLString (bucket key : String) : String :=
  "s3://" ++ bucket ++
    (match key.data with
     | [] => ""
     | c :: _ => if c = '/' then key else "/" ++ key)

/-- One `(Sid, Effect, Principal.AWS, Action, Resource)` entry of the bucket
policy (s3.go, bucketPolicy). -/
structure PolicyStatement where
  Sid : String
  Effect : String
  PrincipalAWS : String
  Action : List String
  Resource : String
deriving DecidableEq, Repr

/-- The `arn:aws:iam::{account}:role/{name}` principal string. -/
def roleArn (accountID roleName : String) : String :=
  "arn:aws:iam::" ++ accountID ++ ":role/" ++ roleName

/-- The control-plane statement of `Service.bucketPolicy` (s3.go). -/
def controlPlaneStatement (accountID bucketName : String) (b : S3Bucket) : PolicyStatement :=
  { Sid := "control-plane"
    Effect := "Allow"
    PrincipalAWS := roleArn accountID b.ControlPlaneIAMInstanceProfile
    Action := ["s3:GetObject"]
    Resource := "arn:aws:s3:::" ++ bucketName ++ "/control-plane/*" }

/-- One per-node statement of `Service.bucketPolicy` (s3.go). -/
def nodeStatement (accountID bucketName iamInstanceProfile : String) : PolicyStatement :=
  { Sid := iamInstanceProfile
    Effect := "Allow"
    PrincipalAWS := roleArn accountID iamInstanceProfile
    Action := ["s3:GetObject"]
    Resource := "arn:aws:s3:::" ++ bucketName ++ "/node/*" }

/-- The statement list of `Service.bucketPolicy` (s3.go): the control-plane
statement, then one statement per entry of `NodesIAMInstanceProfiles` in
order. -/
def bucketPolicyStatements (accountID bucketName : String) (b : S3Bucket) :
    List PolicyStatement :=
  controlPlaneStatement accountID bucketName b ::
    b.NodesIAMInstanceProfiles.map (nodeStatement accountID bucketName)

/-- Go `encoding/json` string escaping: quote, backslash, the HTML-escaped
`<`, `>`, `&`, and control characters. -/
def goJsonEscapeChar (c : Char) : String :=
  if c = '"' then "\\\""
  else if c = '\\' then "\\\\"
  else if c = '<' then "\\u003c"
  else if c = '>' then "\\u003e"
  else if c = '&' then "\\u0026"
  else if c = '\n' then "\\n"
  else if c = '\r' then "\\r"
  else if c = '\t' then "\\t"
  else if c.toNat < 32 then
    "\\u00" ++ String.mk [Char.ofNat (if c.toNat / 16 < 10 then 48 + c.toNat / 16 else 87 + c.toNat / 16),
                          Char.ofNat (if c.toNat % 16 < 10 then 48 + c.toNat % 16 else 87 + c.toNat % 16)]
  else String.mk [c]

/-- Go `encoding/json` rendering of a string value. -/
def goJsonString (s : String) : String :=
  "\"" ++ String.join (s.data.map goJsonEscapeChar) ++ "\""

/-- Go `encoding/json` rendering of a `[]string` value. -/
def goJsonStringList (l : List String) : String :=
  "[" ++ String.intercalate "," (l.map goJsonString) ++ "]"

/-- Go `json.Marshal` of one statement map: map keys are emitted sorted
(Action, Effect, Principal, Resource, Sid), matching Go's deterministic
map-key ordering. -/
def renderStatement (st : PolicyStatement) : String :=
  "\x7b\"Action\":" ++ goJsonStringList st.Action ++
    ",\"Effect\":" ++ goJsonString st.Effect ++
    ",\"Principal\":\x7b\"AWS\":" ++ goJsonString st.PrincipalAWS ++
    "\x7d,\"Resource\":" ++ goJsonString st.Resource ++
    ",\"Sid\":" ++ goJsonString st.Sid ++ "\x7d"

/-- Go `json.Marshal` of the whole policy map (keys Statement, Version in
sorted order). -/
def renderPolicy (sts : List PolicyStatement) : String :=
  "\x7b\"Statement\":[" ++ String.intercalate "," (sts.map renderStatement) ++
    "],\"Version\":\"2012-10-17\"\x7d"

/-- The policy document as a function of the resolved account id, the bucket
name and the bucket spec: the pure core of `Service.bucketPolicy`
(s3.go). -/
def Service.bucketPolicyString (accountID bucketName : String) (b : S3Bucket) : String :=
  renderPolicy (bucketPolicyStatements accountID bucketName b)

/-- Model of `Service.bucketPolicy` (s3.go): resolve the caller identity,
then synthesize the policy document. -/
def Service.bucketPolicy (env : CloudEnv) (s : S3Scope) (bucketName : String) :
    Except GoErr String × List CloudCall :=
  match env.getCallerIdentity with
  | .error e => (.error (e.wrap "getting account ID"), [.getCallerIdentity])
  | .ok accountID =>
      (.ok (Service.bucketPolicyString accountID bucketName s.bucket), [.getCallerIdentity])

/-- Model of `Service.ensureBucketPolicy` (s3.go). -/
def Service.ensureBucketPolicy (env : CloudEnv) (s : S3Scope) (bucketName : String) :
    Except GoErr Unit × List CloudCall :=
  match Service.bucketPolicy env s bucketName with
  | (.error e, t) => (.error (e.wrap "generating Bucket policy"), t)
  | (.ok policy, t) =>
      match env.putBucketPolicy bucketName policy with
      | some e => (.error (e.wrap "creating S3 bucket policy"),
                   t ++ [.putBucketPolicy bucketName policy])
      | none => (.ok (), t ++ [.putBucketPolicy bucketName policy])

/-- Model of `Service.createBucketIfNotExist` (s3.go): success, the
"already owned by you" collapse, and the two wrapped failure shapes
(awserr and non-awserr take the same message). -/
def Service.createBucketIfNotExist (env : CloudEnv) (bucketName : String) :
    Except GoErr Unit × List CloudCall :=
  match env.createBucket bucketName with
  | none => (.ok (), [.createBucket bucketName])
  | some e =>
      if isAlreadyOwnedErr e then (.ok (), [.createBucket bucketName])
      else (.error (e.wrap "creating S3 bucket"), [.createBucket bucketName])

/-- Model of `Service.ReconcileBucket` (s3.go). -/
def Service.ReconcileBucket (env : CloudEnv) (s : S3Scope) :
    Except GoErr Unit × List CloudCall :=
  if !Service.bucketManagementEnabled s then (.ok (), [])
  else
    match Service.bucketName s with
    | .error e => (.error (e.wrap "generating bucket name"), [])
    | .ok bucketName =>
        match Service.createBucketIfNotExist env bucketName with
        | (.error e, t) => (.error (e.wrap "ensuring bucket exists"), t)
        | (.ok _, t) =>
            match Service.ensureBucketPolicy env s bucketName with
            | (.error e, t2) => (.error (e.wrap "ensuring bucket policy"), t ++ t2)
            | (.ok _, t2) => (.ok (), t ++ t2)

/-- Model of `Service.DeleteBucket` (s3.go). -/
def Service.DeleteBucket (env : CloudEnv) (s : S3Scope) :
    Except GoErr Unit × List CloudCall :=
  if !Service.bucketManagementEnabled s then (.ok (), [])
  else
    match Service.bucketName s with
    | .error e => (.error (e.wrap "generating bucket name"), [])
    | .ok bucketName =>
        match env.deleteBucket bucketName with
        | some e => (.error (e.wrap "deleting S3 bucket"), [.deleteBucket bucketName])
        | none => (.ok (), [.deleteBucket bucketName])

/-- Model of `Service.Create` (s3.go), the spec's `Put`: guards for the
disabled feature, a nil machine scope and empty data, then one PutObject
call and the `s3://bucket/key` reference. -/
def Service.Create (env : CloudEnv) (s : S3Scope) (m : Option MachineScope) (data : String) :
    Except GoErr String × List CloudCall :=
  if !Service.bucketManagementEnabled s then
    (.error (.plain "requested object creation but bucket management is not enabled"), [])
  else
    match m with
    | none => (.error (.plain "machine scope can't be nil"), [])
    | some m =>
        if data = "" then (.error (.plain "got empty data"), [])
        else
          match Service.bucketName s with
          | .error e => (.error (e.wrap "generating bucket name"), [])
          | .ok bucket =>
              let key := Service.bootstrapDataKey m
              match env.putObject bucket key data with
              | some e => (.error (e.wrap "putting object"), [.putObject bucket key data])
              | none => (.ok (objectURLString bucket key), [.putObject bucket key data])

/-- Model of `Service.Delete` (s3.go): same disabled and nil guards, then
one DeleteObject call. -/
def Service.Delete (env : CloudEnv) (s : S3Scope) (m : Option MachineScope) :
    Except GoErr Unit × List CloudCall :=
  if !Service.bucketManagementEnabled s then
    (.error (.plain "requested object creation but bucket management is not enabled"), [])
  else
    match m with
    | none => (.error (.plain "machine scope can't be nil"), [])
    | some m =>
        match Service.bucketName s with
        | .error e => (.error (e.wrap "generating bucket name"), [])
        | .ok bucketName =>
            match env.deleteObject bucketName (Service.bootstrapDataKey m) with
            | some e => (.error (e.wrap "deleting object"), [.deleteObject bucketName (Service.bootstrapDataKey m)])
            | none => (.ok (), [.deleteObject bucketName (Service.bootstrapDataKey m)])

/-- Model of `v1alpha4.File` as read by `getStorage` (part_002): path, an
optional octal permission string and optional inline content, with Go's
empty string standing for absence. -/
structure FileSpec where
  Path : String
  Permissions : String
  Content : String
deriving DecidableEq, Repr

/-- Model of a systemd drop-in fragment (`ignition/node.go`,
`ServiceUnit.Dropins` entries). -/
structure ServiceDropin where
  Name : String
  Content : String
deriving DecidableEq, Repr

/-- Model of `ServiceUnit` (package ignition). -/
structure ServiceUnit where
  Name : String
  Content : String
  Enabled : Bool
  Dropins : List ServiceDropin
deriving DecidableEq, Repr

/-- Model of `Node` (ignition/node.go). -/
structure Node where
  Files : List FileSpec
  Services : List ServiceUnit
  Version : String
deriving DecidableEq, Repr

/-- Model of `ignTypes.File` (coreos ignition v2_2 types), flattened: the
`Node` part (Filesystem, Path, Overwrite) and the `FileEmbedded1` part
(Append, Mode, Contents.Source with "" for the zero value). -/
structure IgnFile where
  Filesystem : String
  Path : String
  Overwrite : Option Bool
  Append : Bool
  Mode : Option Int
  ContentsSource : String
deriving DecidableEq, Repr

/-- Model of `ignTypes.Storage`. -/
structure IgnStorage where
  Files : List IgnFile
deriving DecidableEq, Repr

/-- Model of `ignTypes.SystemdDropin`. -/
structure IgnSystemdDropin where
  Name : String
  Contents : String
deriving DecidableEq, Repr

/-- Model of `ignTypes.Unit`. -/
structure IgnUnit where
  Name : String
  Enabled : Option Bool
  Contents : String
  Dropins : List IgnSystemdDropin
deriving DecidableEq, Repr

/-- Model of `ignTypes.Systemd`. -/
structure IgnSystemd where
  Units : List IgnUnit
deriving DecidableEq, Repr

/-- Model of `ignTypes.ConfigReference`. -/
structure ConfigReference where
  Source : String
deriving DecidableEq, Repr

/-- Model of `ignTypes.IgnitionConfig`: the append list and the optional
replace reference. -/
structure IgnitionConfig where
  Append : List ConfigReference := []
  Replace : Option ConfigReference := none
deriving DecidableEq, Repr

/-- Model of `ignTypes.Ignition`. -/
structure Ignition where
  Version : String
  Config : IgnitionConfig := {}
deriving DecidableEq, Repr

/-- Model of `ignTypes.Config`: the document assembled by the factory. -/
structure IgnConfig where
  Ignition : Ignition
  Storage : IgnStorage := ⟨[]⟩
  Systemd : IgnSystemd := ⟨[]⟩
deriving DecidableEq, Repr

/-- Model of `DefaultFileMode` (ignition/node.go): octal 0644. -/
def DefaultFileMode : Int := 0o644

/-- Accumulate octal digits; `none` on the first non-octal character
(strconv.ParseInt digit scan for base 8). -/
def octalDigitsAcc : List Char → Nat → Option Nat
  | [], acc => some acc
  | c :: rest, acc =>
      if '0' ≤ c ∧ c ≤ '7' then octalDigitsAcc rest (acc * 8 + (c.toNat - 48))
      else none

/-- Model of Go `strconv.ParseInt(s, 8, 32)`: optional sign, octal digits,
32-bit range check; syntax and range failures carry the offending value as
Go's NumError message does. -/
def goParseIntBase8Bit32 (s : String) : Except GoErr Int :=
  let parts : Bool × List Char :=
    match s.data with
    | '-' :: rest => (true, rest)
    | '+' :: rest => (false, rest)
    | cs => (false, cs)
  match parts.2, octalDigitsAcc parts.2 0 with
  | [], _ =>
      .error (.plain ("strconv.ParseInt: parsing " ++ goJsonString s ++ ": invalid syntax"))
  | _, none =>
      .error (.plain ("strconv.ParseInt: parsing " ++ goJsonString s ++ ": invalid syntax"))
  | _ :: _, some n =>
      if parts.1 then
        if n > 2147483648 then
          .error (.plain ("strconv.ParseInt: parsing " ++ goJsonString s ++ ": value out of range"))
        else .ok (-(n : Int))
      else
        if n > 2147483647 then
          .error (.plain ("strconv.ParseInt: parsing " ++ goJsonString s ++ ": value out of range"))
        else .ok (n : Int)

/-- Characters `dataurl.EscapeString` leaves unescaped, modelled as the URL
unreserved set; the exact safe set only determines which bytes are
percent-escaped and does not affect the decode round trip. -/
def isEscapeSafe (c : Char) : Bool :=
  c.isAlphanum || c = '-' || c = '_' || c = '.' || c = '~'

/-- Upper-case hex digit of a value below 16. -/
def upperHexDigit (n : Nat) : Char :=
  if n < 10 then Char.ofNat (48 + n) else Char.ofNat (55 + n)

/-- Hex digit value (0 for non-hex characters, which never arise from
`upperHexDigit`). -/
def hexVal (c : Char) : Nat :=
  if '0' ≤ c ∧ c ≤ '9' then c.toNat - 48
  else if 'A' ≤ c ∧ c ≤ 'F' then c.toNat - 55
  else if 'a' ≤ c ∧ c ≤ 'f' then c.toNat - 87
  else 0

/-- Percent-escape one byte-sized character. -/
def escapeChar (c : Char) : List Char :=
  if isEscapeSafe c then [c]
  else ['%', upperHexDigit (c.toNat / 16 % 16), upperHexDigit (c.toNat % 16)]

/-- Percent-escape a character list. -/
def escapeList : List Char → List Char
  | [] => []
  | c :: rest => escapeChar c ++ escapeList rest

/-- Standard percent-decoding: `%HH` becomes the byte `HH`, everything else
passes through. -/
def unescapeList : List Char → List Char
  | [] => []
  | [c] => [c]
  | c :: d :: rest =>
      if c = '%' then
        match rest with
        | h2 :: rest2 => Char.ofNat (16 * hexVal d + hexVal h2) :: unescapeList rest2
        | [] => [c, d]
      else c :: unescapeList (d :: rest)

/-- Model of `dataurl.EscapeString`. -/
def EscapeString (s : String) : String :=
  String.mk (escapeList s.data)

/-- Percent-decoding on strings (the inverse direction of
`dataurl.EscapeString`). -/
def unescapeString (s : String) : String :=
  String.mk (unescapeList s.data)

/-- The inline content reference `getStorage` builds:
`(&url.URL{Scheme: "data", Opaque: "," + dataurl.EscapeString(content)}).String()`. -/
def dataURLString (content : String) : String :=
  "data:," ++ EscapeString content

/-- Model of the per-file translation inside `getStorage` (part_002):
fixed root filesystem, overwrite pointer set to true, append false, default
mode unless a permission string parses in base 8, inline data reference for
non-empty content. -/
def convertFile (f : FileSpec) : Except GoErr IgnFile :=
  let newFile : IgnFile :=
    { Filesystem := "root", Path := f.Path, Overwrite := some true
      Append := false, Mode := some DefaultFileMode, ContentsSource := "" }
  match (if f.Permissions = "" then .ok newFile
         else (goParseIntBase8Bit32 f.Permissions).map fun v => { newFile with Mode := some v }) with
  | .error e => .error e
  | .ok nf =>
      .ok (if f.Content = "" then nf
           else { nf with ContentsSource := dataURLString f.Content })

/-- The file loop of `getStorage` (part_002): first parse failure aborts. -/
def getStorageFiles : List FileSpec → Except GoErr (List IgnFile)
  | [] => .ok []
  | f :: rest =>
      match convertFile f with
      | .error e => .error e
      | .ok nf =>
          match getStorageFiles rest with
          | .error e => .error e
          | .ok l => .ok (nf :: l)

/-- Model of `getStorage` (part_002). -/
def getStorage (files : List FileSpec) : Except GoErr IgnStorage :=
  (getStorageFiles files).map IgnStorage.mk

/-- Model of `getSystemd` (part_002). -/
def getSystemd (services : List ServiceUnit) : IgnSystemd :=
  ⟨services.map fun su =>
    { Name := su.Name, Enabled := some su.Enabled, Contents := su.Content
      Dropins := su.Dropins.map fun d => ⟨d.Name, d.Content⟩ }⟩

/-- Model of the `baseIgnitionUri` version table
(ignition/s3backend_backend.go). -/
def baseIgnitionUri : String → Option String := fun v =>
  if v = "v1.15.11" then some "ignition-config/k8s-v1.15.11.ign"
  else if v = "v1.16.8" then some "ignition-config/k8s-v1.16.8.ign"
  else if v = "v1.17.4" then some "ignition-config/k8s-v1.17.4.ign"
  else none

/-- Model of `KubernetesDefaultVersion` (ignition/s3backend_backend.go). -/
def KubernetesDefaultVersion : String := "v1.17.4"

/-- Model of `IgnitionSchemaVersion` (ignition/s3backend_backend.go). -/
def IgnitionSchemaVersion : String := "2.2.0"

/-- Model of `userDataDirName` (ignition/s3backend_backend.go). -/
def userDataDirName : String := "node-userdata"

/-- Model of `S3TemplateBackend.getIgnitionBaseConfig`
(ignition/s3backend_backend.go): only the schema version set. -/
def getIgnitionBaseConfig : IgnConfig :=
  { Ignition := { Version := IgnitionSchemaVersion } }

/-- Model of `S3TemplateBackend.getIgnitionConfigTemplate`
(ignition/s3backend_backend.go): an unknown version is logged and falls back
to the default version's template path; the append reference points at the
`s3://bucket/path` URL. -/
def getIgnitionConfigTemplate (userDataBucket : String) (node : Node) :
    Except GoErr IgnConfig :=
  let templateConfigUri :=
    match baseIgnitionUri node.Version with
    | some uri => uri
    | none => (baseIgnitionUri KubernetesDefaultVersion).getD ""
  let out := getIgnitionBaseConfig
  .ok { out with Ignition := { out.Ignition with
          Config := { Append := [⟨objectURLString userDataBucket templateConfigUri⟩]
                      Replace := none } } }

/-- The inputs `S3TemplateBackend.applyConfig` draws from outside: the fresh
uuid and the PutObject outcome. -/
structure ApplyEnv where
  uuid : String
  putObject : String → String → String → Option GoErr

/-- Model of `S3TemplateBackend.applyConfig` (ignition/s3backend_backend.go):
writes the payload under `node-userdata/{uuid}` and returns a config whose
replace reference points at that object, together with the stored file
path. -/
def S3TemplateBackend.applyConfig (env : ApplyEnv) (userDataBucket : String) (userdata : String) :
    Except GoErr (IgnConfig × String) × List CloudCall :=
  let filePath := String.intercalate "/" [userDataDirName, env.uuid]
  match env.putObject userDataBucket filePath userdata with
  | some _ => (.error (.plain "failed to put object to bucket"),
               [.putObject userDataBucket filePath userdata])
  | none =>
      let out := getIgnitionBaseConfig
      (.ok ({ out with Ignition := { out.Ignition with
                Config := { Append := [], Replace := some ⟨objectURLString userDataBucket filePath⟩ } } },
             filePath),
       [.putObject userDataBucket filePath userdata])

/-- Model of `Factory.BuildIgnitionConfig` (part_002): systemd and storage
sections filled from the node, then the third-party structural validation
gate (`validate.ValidateWithoutSource`), modelled as a caller-supplied
fatal-report function since its code is an external library. -/
def BuildIgnitionConfig (validateFatal : IgnConfig → Option GoErr) (out : IgnConfig)
    (node : Node) : Except GoErr IgnConfig :=
  let out1 := { out with Systemd := getSystemd node.Services }
  match getStorage node.Files with
  | .error e => .error e
  | .ok storage =>
      let out2 := { out1 with Storage := storage }
      match validateFatal out2 with
      | some e => .error e
      | none => .ok out2

/-- Model of `Factory.GenerateUserData` (part_002) over the
S3TemplateBackend: template, then section filling and validation. -/
def GenerateUserData (validateFatal : IgnConfig → Option GoErr) (userDataBucket : String)
    (node : Node) : Except GoErr IgnConfig :=
  match getIgnitionConfigTemplate userDataBucket node with
  | .error e => .error e
  | .ok out => BuildIgnitionConfig validateFatal out node

/-- Splits a character list at every '.', keeping empty fields — the field
structure `strings.Split`-style parsing of a dotted quad sees. -/
def splitOnDot : List Char → List (List Char)
  | [] => [[]]
  | c :: rest =>
      if c = '.' then [] :: splitOnDot rest
      else
        match splitOnDot rest with
        | [] => [[c]]
        | p :: ps => (c :: p) :: ps

/-- Model of Go `net.ParseIP` restricted to IPv4 dotted-quad literals:
four non-empty decimal fields of at most three digits, each at most 255.
IPv6 literals contain ':', which no input considered by any theorem below
contains, so the IPv6 path is not modelled. -/
def goParseIPv4 (s : String) : Bool :=
  let parts := splitOnDot s.data
  parts.length = 4 && parts.all fun p =>
    decide (0 < p.length) && decide (p.length ≤ 3) && p.all Char.isDigit &&
      decide (p.foldl (fun a c => a * 10 + (c.toNat - 48)) 0 ≤ 255)

/-- Model of `validateS3BucketName` (api/v1alpha3/validate.go): the four
checks, each appending one field error (modelled by its message), run
unconditionally in order.  The character classes transcribe the source
regexes `[^a-z1-9.-]`, `^[a-z1-9]` and `[a-z1-9]$` literally — note `1-9`,
not `0-9`. -/
def validateS3BucketName (name : String) : List String :=
  let inClass : Char → Bool := fun c =>
    ('a' ≤ c && c ≤ 'z') || ('1' ≤ c && c ≤ '9') || c = '.' || c = '-'
  let errs1 : List String :=
    if name.length < 3 || 63 < name.length then
      ["must be between 3 and 63 characters long"] else []
  let errs2 : List String :=
    if name.data.any (fun c => !inClass c) then
      ["consist only of lowercase letters, numbers, dots (.), and hyphens (-)"] else []
  let startsOk : Bool :=
    match name.data with
    | [] => false
    | c :: _ => ('a' ≤ c && c ≤ 'z') || ('1' ≤ c && c ≤ '9')
  let endsOk : Bool :=
    match name.data.getLast? with
    | none => false
    | some c => ('a' ≤ c && c ≤ 'z') || ('1' ≤ c && c ≤ '9')
  let errs3 : List String :=
    if !startsOk || !endsOk then ["must begin and end with a letter or number"] else []
  let errs4 : List String :=
    if goParseIPv4 name then
      ["must not be formatted as an IP address (for example, 192.168.5.4)"] else []
  errs1 ++ errs2 ++ errs3 ++ errs4

/-- Follows the spec's words (§3 BucketName invariant), for comparison with
`validateS3BucketName`: length between 3 and 63, only lowercase letters,
digits, '.' and '-', first and last character a letter or digit, not an IP
literal. -/
def specBucketNameValid (name : String) : Bool :=
  3 ≤ name.length && name.length ≤ 63 &&
  name.data.all (fun c => ('a' ≤ c && c ≤ 'z') || c.isDigit || c = '.' || c = '-') &&
  (match name.data with
   | [] => false
   | c :: _ => ('a' ≤ c && c ≤ 'z') || c.isDigit) &&
  (match name.data.getLast? with
   | none => false
   | some c => ('a' ≤ c && c ≤ 'z') || c.isDigit) &&
  !goParseIPv4 name

/-- An environment where every capability call succeeds and the caller's
account id resolves to "123456789012". -/
def envOk : CloudEnv :=
  { createBucket := fun _ => none
    deleteBucket := fun _ => none
    putObject := fun _ _ _ => none
    deleteObject := fun _ _ => none
    putBucketPolicy := fun _ _ => none
    getCallerIdentity := .ok "123456789012" }

/-- Like `envOk`, but `CreateBucket` reports the bucket as already owned by
the caller. -/
def envAlreadyOwned : CloudEnv :=
  { envOk with createBucket := fun _ => some (.aws errCodeBucketAlreadyOwnedByYou "exists") }

/-- Like `envOk`, but `CreateBucket` fails with a non-AWS error. -/
def envCreateFail : CloudEnv :=
  { envOk with createBucket := fun _ => some (.plain "boom") }

/-- A managed bucket spec with a control-plane identity and two node
identities. -/
def bucketCp2 : S3Bucket :=
  { Create := true, Name := "test-bucket"
    ControlPlaneIAMInstanceProfile := "cp-role"
    NodesIAMInstanceProfiles := ["n1-role", "n2-role"] }

/-- A scope whose bucket management is enabled. -/
def scopeEnabled : S3Scope :=
  { bucket := bucketCp2, ns := "default", kubernetesClusterName := "demo" }

/-- The same scope with bucket management disabled. -/
def scopeDisabled : S3Scope :=
  { scopeEnabled with bucket := { bucketCp2 with Create := false } }

theorem Service.bucketName_isOk (s : S3Scope) : ∃ bn, Service.bucketName s = .ok bn := by
  unfold Service.bucketName
  split
  · exact ⟨_, rfl⟩
  · dsimp only
    split
    · exact ⟨_, rfl⟩
    · exact ⟨_, rfl⟩

theorem hexVal_upperHexDigit : ∀ n < 16, hexVal (upperHexDigit n) = n := by decide

theorem isEscapeSafe_ne_percent (c : Char) (h : isEscapeSafe c = true) : c ≠ '%' := by
  intro hc
  rw [hc] at h
  exact absurd h (by decide)

theorem unescapeList_cons_of_ne (c : Char) (L : List Char) (h : c ≠ '%') :
    unescapeList (c :: L) = c :: unescapeList L := by
  cases L with
  | nil => rfl
  | cons d t =>
    cases t with
    | nil => simp only [unescapeList, if_neg h]
    | cons e u => simp only [unescapeList, if_neg h]

theorem unescapeList_percent (d1 d2 : Char) (L : List Char) :
    unescapeList ('%' :: d1 :: d2 :: L) =
      Char.ofNat (16 * hexVal d1 + hexVal d2) :: unescapeList L := by
  simp [unescapeList]

theorem unescapeList_escapeList (l : List Char) (h : ∀ c ∈ l, c.toNat < 256) :
    unescapeList (escapeList l) = l := by
  induction l with
  | nil => rfl
  | cons c rest ih =>
    have hc : c.toNat < 256 := h c (List.mem_cons_self c rest)
    have hrest : ∀ x ∈ rest, x.toNat < 256 := fun x hx => h x (List.mem_cons_of_mem c hx)
    by_cases hs : isEscapeSafe c
    · rw [show escapeList (c :: rest) = c :: escapeList rest from by
        simp [escapeList, escapeChar, hs]]
      rw [unescapeList_cons_of_ne c _ (isEscapeSafe_ne_percent c hs), ih hrest]
    · rw [show escapeList (c :: rest) =
          '%' :: upperHexDigit (c.toNat / 16 % 16) :: upperHexDigit (c.toNat % 16) ::
            escapeList rest from by simp [escapeList, escapeChar, hs]]
      rw [unescapeList_percent]
      rw [hexVal_upperHexDigit _ (by omega), hexVal_upperHexDigit _ (by omega)]
      rw [Nat.mod_eq_of_lt (show c.toNat / 16 < 16 by omega), Nat.div_add_mod]
      rw [Char.ofNat_toNat, ih hrest]

theorem unescapeString_EscapeString (s : String) (h : ∀ c ∈ s.data, c.toNat < 256) :
    unescapeString (EscapeString s) = s := by
  show String.mk (unescapeList (escapeList s.data)) = s
  rw [unescapeList_escapeList s.data h]

theorem convertFile_error_of_parse_error (f : FileSpec) (e : GoErr)
    (hP : f.Permissions ≠ "") (he : goParseIntBase8Bit32 f.Permissions = .error e) :
    convertFile f = .error e := by
  simp [convertFile, hP, he, Except.map]

theorem getStorageFiles_error_of_mem (files : List FileSpec) (f : FileSpec) (e : GoErr)
    (hf : f ∈ files) (he : convertFile f = .error e) :
    ∃ e2, getStorageFiles files = .error e2 := by
  induction files with
  | nil => cases hf
  | cons g rest ih =>
    rcases List.mem_cons.mp hf with hfg | hmem
    · exact ⟨e, by simp [getStorageFiles, hfg ▸ he]⟩
    · rcases hg : convertFile g with eg | vg
      · exact ⟨eg, by simp [getStorageFiles, hg]⟩
      · obtain ⟨e2, h2⟩ := ih hmem
        exact ⟨e2, by simp [getStorageFiles, hg, h2]⟩

theorem getStorageFiles_ok_mem (files : List FileSpec) (l : List IgnFile)
    (h : getStorageFiles files = .ok l) :
    ∀ y ∈ l, ∃ f, f ∈ files ∧ convertFile f = .ok y := by
  induction files generalizing l with
  | nil =>
    simp only [getStorageFiles, Except.ok.injEq] at h
    subst h
    simp
  | cons g rest ih =>
    simp only [getStorageFiles] at h
    rcases hg : convertFile g with eg | nf <;> rw [hg] at h
    · cases h
    · rcases hr : getStorageFiles rest with e2 | l2 <;> rw [hr] at h
      · cases h
      · simp only [Except.ok.injEq] at h
        subst h
        intro y hy
        rcases List.mem_cons.mp hy with hyn | hyl
        · exact ⟨g, List.mem_cons_self g rest, hyn ▸ hg⟩
        · obtain ⟨f, hf, hcf⟩ := ih l2 hr y hyl
          exact ⟨f, List.mem_cons_of_mem g hf, hcf⟩

theorem convertFile_fixed_fields (f : FileSpec) (nf : IgnFile) (h : convertFile f = .ok nf) :
    nf.Filesystem = "root" ∧ nf.Overwrite = some true ∧ nf.Append = false := by
  by_cases hP : f.Permissions = ""
  · by_cases hC : f.Content = "" <;>
      simp only [convertFile, hP, if_true, hC, if_false, ite_true, ite_false, reduceIte,
        Except.ok.injEq] at h <;> subst h <;> exact ⟨rfl, rfl, rfl⟩
  · rcases hq : goParseIntBase8Bit32 f.Permissions with e | v
    · rw [convertFile_error_of_parse_error f e hP hq] at h
      cases h
    · by_cases hC : f.Content = "" <;>
        simp only [convertFile, hP, hq, if_true, hC, if_false, ite_true, ite_false, reduceIte,
          Except.map, Except.ok.injEq] at h <;> subst h <;> exact ⟨rfl, rfl, rfl⟩

/-- C1 (amended): with bucket management disabled (`Create=false`),
`ReconcileBucket` and `DeleteBucket` return success with zero capability
calls, while `Put` (Service.Create) and `Delete` return the distinct
"bucket management is not enabled" error — not success — also with zero
capability calls. -/
theorem disabled_short_circuit_corrected (env : CloudEnv) (s : S3Scope)
    (m : Option MachineScope) (data : String) (h : s.bucket.Create = false) :
    Service.ReconcileBucket env s = (.ok (), []) ∧
    Service.DeleteBucket env s = (.ok (), []) ∧
    Service.Create env s m data =
      (.error (.plain "requested object creation but bucket management is not enabled"), []) ∧
    Service.Delete env s m =
      (.error (.plain "requested object creation but bucket management is not enabled"), []) := by
  refine ⟨?_, ?_, ?_, ?_⟩ <;>
    simp [Service.ReconcileBucket, Service.DeleteBucket, Service.Create, Service.Delete,
      Service.bucketManagementEnabled, h]

/-- C1 witness: the amended disabled short-circuit at a concrete scope. -/
theorem disabled_short_circuit_corrected_witness :
    Service.ReconcileBucket envOk scopeDisabled = (.ok (), []) ∧
    Service.DeleteBucket envOk scopeDisabled = (.ok (), []) ∧
    Service.Create envOk scopeDisabled (some ⟨"node", "machine-a"⟩) "payload" =
      (.error (.plain "requested object creation but bucket management is not enabled"), []) ∧
    Service.Delete envOk scopeDisabled (some ⟨"node", "machine-a"⟩) =
      (.error (.plain "requested object creation but bucket management is not enabled"), []) :=
  disabled_short_circuit_corrected envOk scopeDisabled (some ⟨"node", "machine-a"⟩) "payload" rfl

/-- C1 counterexample: with management disabled, `Put` (Service.Create)
returns an error, not success as the claim states. -/
theorem disabled_put_returns_error :
    (Service.Create envOk scopeDisabled (some ⟨"node", "machine-a"⟩) "payload").1 =
      .error (.plain "requested object creation but bucket management is not enabled") := by
  rfl

/-- C4 (amended): with management enabled, `Put` (Service.Create) rejects a
nil machine scope and an empty payload, and `Delete` rejects a nil machine
scope, each without any capability call; an empty `machineName`, however,
is not guarded: `Put` proceeds and issues the PutObject call with the key
collapsing to the role. -/
theorem put_delete_input_guards_corrected (env : CloudEnv) (s : S3Scope)
    (m : MachineScope) (data : String) (h : s.bucket.Create = true) :
    Service.Create env s none data = (.error (.plain "machine scope can't be nil"), []) ∧
    Service.Create env s (some m) "" = (.error (.plain "got empty data"), []) ∧
    Service.Delete env s none = (.error (.plain "machine scope can't be nil"), []) ∧
    (data ≠ "" → m.name = "" → m.role ≠ "" →
      ∃ bn, Service.bucketName s = .ok bn ∧
        (Service.Create env s (some m) data).2 = [.putObject bn m.role data]) := by
  refine ⟨?_, ?_, ?_, ?_⟩
  · simp [Service.Create, Service.bucketManagementEnabled, h]
  · simp [Service.Create, Service.bucketManagementEnabled, h]
  · simp [Service.Delete, Service.bucketManagementEnabled, h]
  · intro hd hn hr
    obtain ⟨bn, hbn⟩ := Service.bucketName_isOk s
    refine ⟨bn, hbn, ?_⟩
    simp only [Service.Create, Service.bucketManagementEnabled, h, Bool.not_true,
      Bool.false_eq_true, if_false, hd, if_neg hd, hbn, Service.bootstrapDataKey, pathJoin,
      hn, if_neg hr, if_pos rfl]
    rcases hpo : env.putObject bn m.role data with _ | e <;> simp [hpo]

/-- C4 witness: the amended input guards at a concrete scope. -/
theorem put_delete_input_guards_corrected_witness :
    Service.Create envOk scopeEnabled none "payload" =
      (.error (.plain "machine scope can't be nil"), []) ∧
    Service.Create envOk scopeEnabled (some ⟨"node", "machine-a"⟩) "" =
      (.error (.plain "got empty data"), []) ∧
    Service.Delete envOk scopeEnabled none = (.error (.plain "machine scope can't be nil"), []) ∧
    (("payload" : String) ≠ "" → ("" : String) = "" → ("node" : String) ≠ "" →
      ∃ bn, Service.bucketName scopeEnabled = .ok bn ∧
        (Service.Create envOk scopeEnabled (some ⟨"node", ""⟩) "payload").2 =
          [.putObject bn "node" "payload"]) :=
  put_delete_input_guards_corrected envOk scopeEnabled ⟨"node", ""⟩ "payload" rfl

/-- C4 counterexample: a `Put` with an empty `machineName` (but a non-nil
machine scope and non-empty payload) is not rejected: it succeeds and
issues one PutObject network call, contradicting the claim that it returns
an InvalidInput error with no network call. -/
theorem empty_machine_name_not_guarded :
    Service.Create envOk scopeEnabled (some ⟨"node", ""⟩) "payload" =
      (.ok "s3://test-bucket/node", [.putObject "test-bucket" "node" "payload"]) := by
  rfl

/-- C8 (code bug): "b0b" satisfies the spec's §3 BucketName invariant —
length 3, lowercase letters and the digit '0', letter first and last, not
an IP literal — yet `validateS3BucketName` rejects it with the
invalid-character error, because the source regexes read `[a-z1-9]` where
the AWS rules its comment cites (and its own error text "numbers") mean
`[a-z0-9]`; a digit-free compliant name such as "bucket-1" is accepted. -/
theorem bucket_name_validator_rejects_digit_zero :
    specBucketNameValid "b0b" = true ∧
    validateS3BucketName "b0b" =
      ["consist only of lowercase letters, numbers, dots (.), and hyphens (-)"] ∧
    validateS3BucketName "bucket-1" = [] ∧
    validateS3BucketName "192.168.5.4" =
      ["must not be formatted as an IP address (for example, 192.168.5.4)"] := by
  refine ⟨by decide, by decide, by decide, by decide⟩

/-- C2: the policy synthesized by `Service.bucketPolicy` has exactly
`1 + length(nodeIdentities)` statements, headed by the control-plane
statement; every statement is either the control-plane principal scoped to
`control-plane/*` or a node principal scoped to `node/*`, so no principal
is granted a prefix other than its own role's; for
`controlPlaneIdentity="cp-role"`, `nodeIdentities=["n1-role","n2-role"]`
the policy is exactly the three expected statements. -/
theorem bucket_policy_least_privilege (accountID bucketName : String) (b : S3Bucket) :
    (bucketPolicyStatements accountID bucketName b).length =
      1 + b.NodesIAMInstanceProfiles.length ∧
    (bucketPolicyStatements accountID bucketName b).head? =
      some (controlPlaneStatement accountID bucketName b) ∧
    (∀ st ∈ bucketPolicyStatements accountID bucketName b,
      (st.PrincipalAWS = roleArn accountID b.ControlPlaneIAMInstanceProfile ∧
       st.Resource = "arn:aws:s3:::" ++ bucketName ++ "/control-plane/*") ∨
      (∃ p ∈ b.NodesIAMInstanceProfiles,
        st.PrincipalAWS = roleArn accountID p ∧
        st.Resource = "arn:aws:s3:::" ++ bucketName ++ "/node/*")) ∧
    bucketPolicyStatements "123456789012" "mybucket" ⟨true, "mybucket", "cp-role", ["n1-role", "n2-role"]⟩ =
      [controlPlaneStatement "123456789012" "mybucket" ⟨true, "mybucket", "cp-role", ["n1-role", "n2-role"]⟩,
       nodeStatement "123456789012" "mybucket" "n1-role",
       nodeStatement "123456789012" "mybucket" "n2-role"] := by
  refine ⟨by simp [bucketPolicyStatements, Nat.add_comm], by simp [bucketPolicyStatements], ?_, rfl⟩
  intro st hst
  simp only [bucketPolicyStatements, List.mem_cons, List.mem_map] at hst
  rcases hst with hcp | ⟨p, hp, hnode⟩
  · subst hcp
    exact Or.inl ⟨rfl, rfl⟩
  · subst hnode
    exact Or.inr ⟨p, hp, rfl, rfl⟩

/-- C3: `Service.bucketName` is a function of `(explicitName, namespace,
clusterName)` alone; it returns the explicit name unchanged when non-empty,
the `namespace-clusterName` candidate when that is shorter than 63
characters (in particular "demo-cluster1" for namespace "demo" and cluster
"cluster1"), and otherwise the base-36 truncated hash of the candidate
followed by "-k8s", of total length at most 63. -/
theorem bucket_name_derivation (s : S3Scope) :
    (∀ s2 : S3Scope, s.bucket.Name = s2.bucket.Name → s.ns = s2.ns →
      s.kubernetesClusterName = s2.kubernetesClusterName →
      Service.bucketName s = Service.bucketName s2) ∧
    (s.bucket.Name ≠ "" → Service.bucketName s = .ok s.bucket.Name) ∧
    (s.bucket.Name = "" → (s.ns ++ "-" ++ s.kubernetesClusterName).length < 63 →
      Service.bucketName s = .ok (s.ns ++ "-" ++ s.kubernetesClusterName)) ∧
    (s.bucket.Name = "" → 63 ≤ (s.ns ++ "-" ++ s.kubernetesClusterName).length →
      ∃ shortName,
        Base36TruncatedHash (s.ns ++ "-" ++ s.kubernetesClusterName)
            (s3MaxBucketNameLength - "-k8s".length) = .ok shortName ∧
        Service.bucketName s = .ok (shortName ++ "-k8s") ∧
        (shortName ++ "-k8s").length ≤ 63) ∧
    Service.bucketName ⟨⟨true, "", "cp-role", ["n1-role"]⟩, "demo", "cluster1"⟩ =
      .ok "demo-cluster1" := by
  refine ⟨?_, ?_, ?_, ?_, rfl⟩
  · intro s2 h1 h2 h3
    simp only [Service.bucketName, h1, h2, h3]
  · intro h
    simp [Service.bucketName, h]
  · intro h1 h2
    unfold Service.bucketName
    rw [if_neg (by simp [h1])]
    exact if_pos h2
  · intro h1 h2
    refine ⟨String.mk ((toBase36 (stableDigest (s.ns ++ "-" ++ s.kubernetesClusterName))).take
        (s3MaxBucketNameLength - "-k8s".length)), rfl, ?_, ?_⟩
    · unfold Service.bucketName
      rw [if_neg (by simp [h1])]
      exact if_neg (Nat.not_lt.mpr h2)
    · have hk : s3MaxBucketNameLength - "-k8s".length = 59 := rfl
      have h4 : ("-k8s" : String).length = 4 := rfl
      have hA : ((toBase36 (stableDigest (s.ns ++ "-" ++
          s.kubernetesClusterName))).take 59).length ≤ 59 :=
        List.length_take_le 59 _
      rw [String.length_append, String.length_mk, hk, h4]
      omega

/-- C9: `getIgnitionConfigTemplate` never fails; an unknown node version
falls back to the default version's template path
"ignition-config/k8s-v1.17.4.ign" (the mapping of the designated default
version "v1.17.4"), and a known version uses its own mapped path in the
append config reference. -/
theorem template_version_fallback (bucket : String) (node : Node) :
    (∃ cfg, getIgnitionConfigTemplate bucket node = .ok cfg) ∧
    baseIgnitionUri KubernetesDefaultVersion = some "ignition-config/k8s-v1.17.4.ign" ∧
    (baseIgnitionUri node.Version = none →
      getIgnitionConfigTemplate bucket node = .ok
        { Ignition := { Version := "2.2.0", Config := { Append := [⟨objectURLString bucket "ignition-config/k8s-v1.17.4.ign"⟩], Replace := none } }, Storage := ⟨[]⟩, Systemd := ⟨[]⟩ }) ∧
    (∀ uri, baseIgnitionUri node.Version = some uri →
      getIgnitionConfigTemplate bucket node = .ok
        { Ignition := { Version := "2.2.0", Config := { Append := [⟨objectURLString bucket uri⟩], Replace := none } }, Storage := ⟨[]⟩, Systemd := ⟨[]⟩ }) := by
  refine ⟨⟨_, rfl⟩, rfl, ?_, ?_⟩
  · intro h
    simp only [getIgnitionConfigTemplate, h]
    rfl
  · intro uri h
    simp only [getIgnitionConfigTemplate, h]
    rfl

/-- C10: every storage file entry produced by `getStorage` carries
Filesystem "root", Overwrite true and Append false, whatever the input
FileSpec; and every config built by the backend — the base config, the
template config and a successful `applyConfig` — carries the fixed schema
version "2.2.0". -/
theorem storage_entries_fixed_fields (files : List FileSpec) (st : IgnStorage)
    (bucket : String) (node : Node) (appEnv : ApplyEnv) (userdata : String) :
    (getStorage files = .ok st →
      ∀ nf ∈ st.Files, nf.Filesystem = "root" ∧ nf.Overwrite = some true ∧ nf.Append = false) ∧
    (∀ cfg, getIgnitionConfigTemplate bucket node = .ok cfg →
      cfg.Ignition.Version = "2.2.0") ∧
    getIgnitionBaseConfig.Ignition.Version = "2.2.0" ∧
    (∀ cfg fp calls,
      S3TemplateBackend.applyConfig appEnv bucket userdata = (.ok (cfg, fp), calls) →
      cfg.Ignition.Version = "2.2.0") := by
  refine ⟨?_, ?_, rfl, ?_⟩
  · intro hst nf hmem
    rcases hsf : getStorageFiles files with e | l
    · simp [getStorage, hsf, Except.map] at hst
    · simp only [getStorage, hsf, Except.map, Except.ok.injEq] at hst
      subst hst
      obtain ⟨f, _, hcf⟩ := getStorageFiles_ok_mem files l hsf nf hmem
      exact convertFile_fixed_fields f nf hcf
  · intro cfg h
    simp only [getIgnitionConfigTemplate, Except.ok.injEq] at h
    subst h
    rfl
  · intro cfg fp calls h
    rcases hpo : appEnv.putObject bucket (String.intercalate "/" [userDataDirName, appEnv.uuid])
        userdata with _ | e
    · simp only [S3TemplateBackend.applyConfig, hpo, Prod.mk.injEq, Except.ok.injEq,
        Prod.mk.injEq] at h
      obtain ⟨⟨hcfg, _⟩, _⟩ := h
      subst hcfg
      rfl
    · simp [S3TemplateBackend.applyConfig, hpo] at h

theorem createBucketIfNotExist_trace (env : CloudEnv) (bn : String) :
    (Service.createBucketIfNotExist env bn).2 = [.createBucket bn] := by
  rcases h : env.createBucket bn with _ | e
  · simp [Service.createBucketIfNotExist, h]
  · by_cases ha : isAlreadyOwnedErr e <;> simp [Service.createBucketIfNotExist, h, ha]

theorem ensureBucketPolicy_trace (env : CloudEnv) (s : S3Scope) (bn : String) :
    ∃ t, (Service.ensureBucketPolicy env s bn).2 = CloudCall.getCallerIdentity :: t := by
  rcases hci : env.getCallerIdentity with e | acc
  · exact ⟨[], by simp [Service.ensureBucketPolicy, Service.bucketPolicy, hci]⟩
  · rcases hpb : env.putBucketPolicy bn (Service.bucketPolicyString acc bn s.bucket) with _ | e2
    · exact ⟨[.putBucketPolicy bn (Service.bucketPolicyString acc bn s.bucket)],
        by simp [Service.ensureBucketPolicy, Service.bucketPolicy, hci, hpb]⟩
    · exact ⟨[.putBucketPolicy bn (Service.bucketPolicyString acc bn s.bucket)],
        by simp [Service.ensureBucketPolicy, Service.bucketPolicy, hci, hpb]⟩

theorem ensureBucketPolicy_trace_cases (env : CloudEnv) (s : S3Scope) (bn : String) :
    (∃ e, env.getCallerIdentity = .error e ∧
      (Service.ensureBucketPolicy env s bn).2 = [.getCallerIdentity]) ∨
    (∃ acc, env.getCallerIdentity = .ok acc ∧
      (Service.ensureBucketPolicy env s bn).2 =
        [.getCallerIdentity, .putBucketPolicy bn (Service.bucketPolicyString acc bn s.bucket)]) := by
  rcases hci : env.getCallerIdentity with e | acc
  · exact Or.inl ⟨e, rfl, by simp [Service.ensureBucketPolicy, Service.bucketPolicy, hci]⟩
  · refine Or.inr ⟨acc, rfl, ?_⟩
    rcases hpb : env.putBucketPolicy bn (Service.bucketPolicyString acc bn s.bucket) with _ | e2 <;>
      simp [Service.ensureBucketPolicy, Service.bucketPolicy, hci, hpb]

theorem ReconcileBucket_after_create_ok (env : CloudEnv) (s : S3Scope) (bn : String)
    (hen : Service.bucketManagementEnabled s = true) (hbn : Service.bucketName s = .ok bn)
    (hc : Service.createBucketIfNotExist env bn = (.ok (), [.createBucket bn])) :
    (Service.ReconcileBucket env s).2 =
      CloudCall.createBucket bn :: (Service.ensureBucketPolicy env s bn).2 := by
  rcases hep : Service.ensureBucketPolicy env s bn with ⟨r2, t2⟩
  cases r2 <;> simp [Service.ReconcileBucket, hen, hbn, hc, hep]

/-- C5: during reconciliation, a CreateBucket failure whose AWS code is
"BucketAlreadyOwnedByYou" is collapsed to success and reconciliation
proceeds to the policy steps (the identity lookup is observed), while any
other CreateBucket failure aborts `ReconcileBucket` with the underlying
error wrapped first with "creating S3 bucket" and then with "ensuring
bucket exists". -/
theorem create_bucket_already_owned_collapse (env : CloudEnv) (s : S3Scope) (bn : String)
    (hen : s.bucket.Create = true) (hbn : Service.bucketName s = .ok bn) :
    (∀ msg, env.createBucket bn = some (.aws errCodeBucketAlreadyOwnedByYou msg) →
      Service.createBucketIfNotExist env bn = (.ok (), [.createBucket bn]) ∧
      CloudCall.getCallerIdentity ∈ (Service.ReconcileBucket env s).2) ∧
    (∀ e, env.createBucket bn = some e → isAlreadyOwnedErr e = false →
      Service.ReconcileBucket env s =
        (.error ((e.wrap "creating S3 bucket").wrap "ensuring bucket exists"),
         [.createBucket bn])) := by
  constructor
  · intro msg hmsg
    have hcb : Service.createBucketIfNotExist env bn = (.ok (), [.createBucket bn]) := by
      simp [Service.createBucketIfNotExist, hmsg, isAlreadyOwnedErr]
    refine ⟨hcb, ?_⟩
    rw [ReconcileBucket_after_create_ok env s bn hen hbn hcb]
    obtain ⟨t, ht⟩ := ensureBucketPolicy_trace env s bn
    rw [ht]
    simp
  · intro e he hna
    have hcb : Service.createBucketIfNotExist env bn =
        (.error (e.wrap "creating S3 bucket"), [.createBucket bn]) := by
      simp [Service.createBucketIfNotExist, he, hna]
    simp [Service.ReconcileBucket, Service.bucketManagementEnabled, hen, hbn, hcb]

/-- C5 witness: the collapse and the wrapped failure at concrete
environments. -/
theorem create_bucket_already_owned_collapse_witness :
    (Service.createBucketIfNotExist envAlreadyOwned "test-bucket" =
      (.ok (), [.createBucket "test-bucket"]) ∧
     CloudCall.getCallerIdentity ∈ (Service.ReconcileBucket envAlreadyOwned scopeEnabled).2) ∧
    Service.ReconcileBucket envCreateFail scopeEnabled =
      (.error (((GoErr.plain "boom").wrap "creating S3 bucket").wrap "ensuring bucket exists"),
       [.createBucket "test-bucket"]) :=
  ⟨(create_bucket_already_owned_collapse envAlreadyOwned scopeEnabled "test-bucket" rfl rfl).1
      "exists" rfl,
   (create_bucket_already_owned_collapse envCreateFail scopeEnabled "test-bucket" rfl rfl).2
      (.plain "boom") rfl rfl⟩

/-- C6: the policy document is a pure function of the bucket spec, the
bucket name and the resolved account id: two environments agreeing on
`GetCallerIdentity` yield identical `bucketPolicy` results (byte-identical
policy strings); on success the result is exactly
`bucketPolicyString accountID bucketName spec`; and every policy a
`ReconcileBucket` run attaches is that same function of the spec and
account id, so a second run with unchanged external state attaches an
identical policy. -/
theorem bucket_policy_pure_function (env1 env2 : CloudEnv) (s : S3Scope) (bn : String)
    (h : env1.getCallerIdentity = env2.getCallerIdentity) :
    Service.bucketPolicy env1 s bn = Service.bucketPolicy env2 s bn ∧
    (∀ accountID, env1.getCallerIdentity = .ok accountID →
      Service.bucketPolicy env1 s bn =
        (.ok (Service.bucketPolicyString accountID bn s.bucket), [.getCallerIdentity])) ∧
    (∀ b p, CloudCall.putBucketPolicy b p ∈ (Service.ReconcileBucket env1 s).2 →
      ∃ accountID, env1.getCallerIdentity = .ok accountID ∧
        Service.bucketName s = .ok b ∧
        p = Service.bucketPolicyString accountID b s.bucket) := by
  refine ⟨?_, ?_, ?_⟩
  · simp [Service.bucketPolicy, h]
  · intro accountID ha
    simp [Service.bucketPolicy, ha]
  · intro b p hmem
    by_cases hen : Service.bucketManagementEnabled s
    case neg => simp [Service.ReconcileBucket, hen] at hmem
    obtain ⟨bn2, hbn2⟩ := Service.bucketName_isOk s
    rcases hc : Service.createBucketIfNotExist env1 bn2 with ⟨rc, tc⟩
    have htc : tc = [CloudCall.createBucket bn2] := by
      have ht := createBucketIfNotExist_trace env1 bn2
      rw [hc] at ht
      exact ht
    subst htc
    cases rc with
    | error ec =>
      simp [Service.ReconcileBucket, hen, hbn2, hc] at hmem
    | ok u =>
      cases u
      rw [ReconcileBucket_after_create_ok env1 s bn2 hen hbn2 hc] at hmem
      rcases ensureBucketPolicy_trace_cases env1 s bn2 with ⟨e, hci, h2t⟩ | ⟨acc, hci, h2t⟩
      · rw [h2t] at hmem
        simp at hmem
      · rw [h2t] at hmem
        simp only [List.mem_cons, List.mem_singleton, List.not_mem_nil, or_false] at hmem
        rcases hmem with h1 | h2 | h3
        · cases h1
        · cases h2
        · obtain ⟨hb, hp⟩ := CloudCall.putBucketPolicy.inj h3
          subst hb
          exact ⟨acc, hci, hbn2, hp⟩

/-- C6 witness: the pure policy value at a concrete environment and
scope. -/
theorem bucket_policy_pure_function_witness :
    Service.bucketPolicy envOk scopeEnabled "test-bucket" =
      (.ok (Service.bucketPolicyString "123456789012" "test-bucket" scopeEnabled.bucket),
       [.getCallerIdentity]) :=
  (bucket_policy_pure_function envOk envOk scopeEnabled "test-bucket" rfl).2.1 "123456789012" rfl

/-- C7: `getStorage`'s per-file translation gives a file entry mode equal
to the base-8 parse of its permission string when one is given (so "0640"
yields decimal 416), the default 0644 mode otherwise; non-empty content is
embedded as a `data:,`-escaped inline reference whose percent-decoding
recovers the original (byte-string) content; a permission string that fails
base-8 parsing makes `GenerateUserData` return an error; and the single
file `/etc/foo` / "bar" / "0640" yields exactly one entry with mode 416 and
content decoding to "bar". -/
theorem storage_translation_modes_and_content (node : Node) (f : FileSpec) :
    (f.Permissions = "" → ∃ nf, convertFile f = .ok nf ∧ nf.Mode = some DefaultFileMode) ∧
    (∀ v, f.Permissions ≠ "" → goParseIntBase8Bit32 f.Permissions = .ok v →
      ∃ nf, convertFile f = .ok nf ∧ nf.Mode = some v) ∧
    (∀ nf, convertFile f = .ok nf → f.Content ≠ "" →
      nf.ContentsSource = "data:," ++ EscapeString f.Content ∧
      ((∀ c ∈ f.Content.data, c.toNat < 256) →
        unescapeString (EscapeString f.Content) = f.Content)) ∧
    (∀ e, f ∈ node.Files → f.Permissions ≠ "" → goParseIntBase8Bit32 f.Permissions = .error e →
      ∀ validateFatal bucket, ∃ e2, GenerateUserData validateFatal bucket node = .error e2) ∧
    (goParseIntBase8Bit32 "0640" = .ok 416 ∧
     getStorage [⟨"/etc/foo", "0640", "bar"⟩] =
       .ok ⟨[{ Filesystem := "root", Path := "/etc/foo", Overwrite := some true,
               Append := false, Mode := some 416, ContentsSource := "data:,bar" }]⟩ ∧
     unescapeString "bar" = "bar") := by
  refine ⟨?_, ?_, ?_, ?_, by rfl, by rfl, by rfl⟩
  · intro h
    have hcv : convertFile f = .ok
        { Filesystem := "root", Path := f.Path, Overwrite := some true, Append := false,
          Mode := some DefaultFileMode,
          ContentsSource := if f.Content = "" then "" else dataURLString f.Content } := by
      by_cases hC : f.Content = "" <;> simp [convertFile, h, hC]
    exact ⟨_, hcv, rfl⟩
  · intro v hP hv
    have hcv : convertFile f = .ok
        { Filesystem := "root", Path := f.Path, Overwrite := some true, Append := false,
          Mode := some v,
          ContentsSource := if f.Content = "" then "" else dataURLString f.Content } := by
      by_cases hC : f.Content = "" <;> simp [convertFile, hP, hv, hC, Except.map]
    exact ⟨_, hcv, rfl⟩
  · intro nf hnf hC
    constructor
    · by_cases hP : f.Permissions = ""
      · simp only [convertFile, hP, if_true, hC, if_false, ite_true, ite_false, reduceIte,
          Except.ok.injEq] at hnf
        rw [← hnf]
        rfl
      · rcases hq : goParseIntBase8Bit32 f.Permissions with e | v
        · rw [convertFile_error_of_parse_error f e hP hq] at hnf
          cases hnf
        · simp only [convertFile, hP, hq, hC, ite_false, reduceIte, Except.map,
            Except.ok.injEq] at hnf
          rw [← hnf]
          rfl
    · intro hbytes
      exact unescapeString_EscapeString f.Content hbytes
  · intro e hf hP he validateFatal bucket
    have hcf : convertFile f = .error e := convertFile_error_of_parse_error f e hP he
    obtain ⟨e2, h2⟩ := getStorageFiles_error_of_mem node.Files f e hf hcf
    refine ⟨e2, ?_⟩
    simp [GenerateUserData, getIgnitionConfigTemplate, BuildIgnitionConfig, getStorage,
      h2, Except.map]
